import Mathlib

/-!
Verification of the `replayer` screen-capture pipeline (C++/C sources:
`src/utils.h`, `src/writer.cpp`, `src/xcompgrab.c`, `src/main.cpp`) against its
natural-language specification.  The C/C++ code is shallowly embedded: the
atomic flags become `Bool` fields, pointer arrays become lists, wall-clock
microseconds become `Int`, and each C function becomes a Lean function that
returns the updated state (plus, where the claims need it, a trace of the
externally visible release actions it performed).
-/

namespace Replayer

/-! ## FrameSlotPool: `utils::frame_holder` and `utils::frame_buffers`
(`src/utils.h`).

A `frame_holder` owns an `AVFrame*` (modelled as an opaque identifier) and an
`std::atomic<bool> used` flag.  `try_lock` is the CAS `false → true`;
`release` is the CAS `true → false` and throws `std::runtime_error
"This is not possible!"` when the CAS fails (slot already free). -/

structure frame_holder where
  frameId : Nat
  used : Bool
  deriving Repr, DecidableEq

/-- `frame_holder::try_lock` (`src/utils.h:65-70`): CAS of `used` from `false`
to `true`; returns whether the claim succeeded together with the updated
holder (unchanged when the CAS fails). -/
def frame_holder.try_lock (fh : frame_holder) : Bool × frame_holder :=
  if fh.used = false then (true, { fh with used := true })
  else (false, fh)

/-- `frame_holder::release` (`src/utils.h:72-77`): CAS of `used` from `true`
to `false`; when the CAS fails (the slot is already free) the code throws
`std::runtime_error("This is not possible!")`, modelled as `Except.error`. -/
def frame_holder.release (fh : frame_holder) : Except String frame_holder :=
  if fh.used = true then Except.ok { fh with used := false }
  else Except.error "This is not possible!"

/-- `frame_buffers::get_one` (`src/utils.h:93-100`): scan the `n_` holders in
index order, `try_lock` each, return (a pointer to) the first holder
successfully locked, or null when the scan finds none.  The pool is modelled
as a list of holders; the returned pointer as the claimed index. -/
def frame_buffers.get_one : List frame_holder → Option Nat × List frame_holder
  | [] => (none, [])
  | fh :: rest =>
    match fh.try_lock with
    | (true, fh') => (some 0, fh' :: rest)
    | (false, fh') =>
      let r := frame_buffers.get_one rest
      (r.1.map (· + 1), fh' :: r.2)

/-! ## HandoffQueue: `utils::concurrent_deque` (`src/utils.h:35-55`).

`push` appends at the back under the mutex and notifies; `pop` waits (up to a
timeout) for the deque to be non-empty, then removes from the front.  The
deque contents are modelled as a list, front first; `pop` on an empty queue
returns `none`, the timeout indication. -/

def concurrent_deque.push {α : Type} (d : List α) (x : α) : List α :=
  d ++ [x]

def concurrent_deque.pop {α : Type} : List α → Option (α × List α)
  | [] => none
  | x :: rest => some (x, rest)

/-! ## Writer thread lifecycle: `impl::start` / `impl::stop`
(`src/writer.cpp:141-167`).

The `impl` object holds `std::atomic<bool> run_` (initialised `true`) and a
thread pointer `th_` (null when no thread is running), modelled as a `Bool`
saying whether a thread is running. -/

structure WriterImpl where
  runFlag : Bool
  threadRunning : Bool
  deriving Repr, DecidableEq

/-- `impl::impl` (`src/writer.cpp:138`): `run_(true), th_(0)`. -/
def writer_init : WriterImpl :=
  { runFlag := true, threadRunning := false }

/-- `impl::start` (`src/writer.cpp:141-157`): throws `"already running"` when
`th_` is non-null, otherwise spawns the worker thread. -/
def writer_start (w : WriterImpl) : Except String WriterImpl :=
  if w.threadRunning then Except.error "already running"
  else Except.ok { w with threadRunning := true }

/-- `impl::stop` (`src/writer.cpp:159-167`): returns immediately when `th_`
is null; otherwise clears `run_`, joins the thread, deletes it, zeroes `th_`
and restores `run_ = true`. -/
def writer_stop (w : WriterImpl) : WriterImpl :=
  if w.threadRunning = false then w
  else { runFlag := true, threadRunning := false }

/-! ## BufferBackend slices (`src/xcompgrab.c`).

`XCompGrabSlice` is `{ int used; uint8_t *buf; }`; the buffer pointer is
modelled as a non-zero identifier.  `XCompGrabPBOSlice` is
`{ GLuint pbo; void *ptr; int used; }`. -/

structure XCompGrabSlice where
  used : Bool
  buf : Nat
  deriving Repr, DecidableEq

structure XCompGrabPBOSlice where
  pbo : Nat
  ptr : Nat
  used : Bool
  deriving Repr, DecidableEq

/-- Outcome of a slice-release call.  The source's release callbacks either
reset the `used` flag, hit the failed-CAS branch — which in the code holds
only the comment `/* We should log fatal error */` and performs no logging,
no abort and no state change — or never find a matching slice and fall off
the end. -/
inductive FreeOutcome where
  | reset
  | silentInvariantMiss
  | noMatch
  deriving Repr, DecidableEq

/-- `pvt_alloc_membuffer` (`src/xcompgrab.c:126-137`): scan the slices in
index order; on the first slice whose `used` flag CASes 0→1, return its
buffer pointer; return null if every CAS fails.  Result: claimed buffer
pointer (if any) and updated slice array. -/
def pvt_alloc_membuffer : List XCompGrabSlice → Option Nat × List XCompGrabSlice
  | [] => (none, [])
  | s :: rest =>
    if s.used = false then (some s.buf, { s with used := true } :: rest)
    else
      let r := pvt_alloc_membuffer rest
      (r.1, s :: r.2)

/-- `pvt_free_membuffer` (`src/xcompgrab.c:139-153`): find the slice whose
`buf` equals the released data pointer and CAS its `used` flag 1→0.  When the
CAS fails the code does nothing (the fatal-error branch is an empty comment);
when no slice matches it returns without any effect. -/
def pvt_free_membuffer : List XCompGrabSlice → Nat → List XCompGrabSlice × FreeOutcome
  | [], _ => ([], FreeOutcome.noMatch)
  | s :: rest, data =>
    if s.buf = data then
      if s.used = true then ({ s with used := false } :: rest, FreeOutcome.reset)
      else (s :: rest, FreeOutcome.silentInvariantMiss)
    else
      let r := pvt_free_membuffer rest data
      (s :: r.1, r.2)

/-- `pvt_alloc_pbobuffer` (`src/xcompgrab.c:179-192`): same first-fit CAS scan
over the PBO slices; returns (a pointer to) the claimed slice, modelled as
its index. -/
def pvt_alloc_pbobuffer : List XCompGrabPBOSlice → Option Nat × List XCompGrabPBOSlice
  | [] => (none, [])
  | s :: rest =>
    if s.used = false then (some 0, { s with used := true } :: rest)
    else
      let r := pvt_alloc_pbobuffer rest
      (r.1.map (· + 1), s :: r.2)

/-- `pvt_free_pbobuffer` (`src/xcompgrab.c:194-204`): the opaque argument is
the owning slice itself; when the released data pointer matches `slice->ptr`
the `used` flag is CASed 1→0, the failed-CAS branch again being an empty
`/* We should log fatal error */` comment; a non-matching pointer is silently
ignored. -/
def pvt_free_pbobuffer (slice : XCompGrabPBOSlice) (data : Nat) :
    XCompGrabPBOSlice × FreeOutcome :=
  if data = slice.ptr then
    if slice.used = true then ({ slice with used := false }, FreeOutcome.reset)
    else (slice, FreeOutcome.silentInvariantMiss)
  else (slice, FreeOutcome.noMatch)

/-! ## Capture pacing (`xcompgrab_read_packet`, `src/xcompgrab.c:636-675`).

`pvt_init_stream` records `time_frame = av_gettime()` and the fixed
`frame_duration`.  Each `read_packet` advances `time_frame` by one
`frame_duration` and loops `pts = av_gettime(); delay = time_frame - pts;
if (delay <= 0) break; av_usleep(delay);`, then stamps
`pkt->dts = pkt->pts = pts` and `pkt->duration = frame_duration`.
Time is in microseconds (`Int`); `av_usleep(delay)` is modelled as advancing
the wall clock by exactly the requested delay (instantaneous capture work,
ideal sleep — the regime the claim's scenario stipulates). -/

/-- The wait loop of `xcompgrab_read_packet`: returns the `pts` read when the
loop breaks, i.e. the wall clock once it has reached the anchor. -/
def pacingWait (timeFrame clock : Int) : Int :=
  if _h : timeFrame - clock ≤ 0 then clock
  else pacingWait timeFrame (clock + (timeFrame - clock))
termination_by (timeFrame - clock).toNat
decreasing_by
  omega

structure CaptureTick where
  pts : Int
  duration : Int
  timeFrame : Int
  clockAfter : Int
  deriving Repr, DecidableEq

/-- The pacing portion of `xcompgrab_read_packet`: advance the anchor
(`c->time_frame += c->frame_duration`), wait until the wall clock reaches it,
and stamp the packet (`pkt->pts = pts`, `pkt->duration = c->frame_duration`).
`clockAfter` is the wall clock when the function returns (capture work
instantaneous). -/
def xcompgrab_read_packet_pacing (frameDuration timeFrame clock : Int) : CaptureTick :=
  let tf := timeFrame + frameDuration
  let pts := pacingWait tf clock
  { pts := pts, duration := frameDuration, timeFrame := tf, clockAfter := pts }

/-- Repeated steady-state ticks: the `pts` stamps of `n` consecutive calls to
`xcompgrab_read_packet`, threading the anchor and the wall clock. -/
def captureRun : Nat → Int → Int → Int → List Int
  | 0, _, _, _ => []
  | n + 1, d, tf, clock =>
    let t := xcompgrab_read_packet_pacing d tf clock
    t.pts :: captureRun n d t.timeFrame t.clockAfter

/-! ## WriterPipeline loop and flush (`impl::run`, `src/writer.cpp:96-135`).

The encoder/muxer is the external collaborator of spec §6
(`submit(frame) -> zero-or-more packets`, buffered internally); the claims
stipulate an encoder that buffers `lag` frames before emitting, so it is
modelled as a FIFO of pending presentation stamps: `avcodec_send_frame`
appends, `avcodec_receive_packet` emits the oldest pending frame once more
than `lag` frames are pending (or, after the end-of-stream send, once any
frame is pending) and otherwise reports `EAGAIN`. -/

structure Encoder where
  lag : Nat
  flushing : Bool
  pending : List Int
  deriving Repr, DecidableEq

def avcodec_send_frame (e : Encoder) (pts : Int) : Encoder :=
  { e with pending := e.pending ++ [pts] }

def avcodec_receive_packet (e : Encoder) : Encoder × Option Int :=
  if (e.flushing ∧ e.pending ≠ []) ∨ e.lag < e.pending.length then
    match e.pending with
    | [] => (e, none)
    | p :: rest => ({ e with pending := rest }, some p)
  else (e, none)

/-- State threaded through the writer loop of `impl::run`: encoder, packets
written so far (`av_write_frame` calls, in order, by stamp), the
`written_frames` counter, and the number of `fh->release()` calls made. -/
structure WriterState where
  enc : Encoder
  written : List Int
  writtenFrames : Nat
  releases : Nat
  deriving Repr, DecidableEq

def writerInit (lag : Nat) : WriterState :=
  { enc := { lag := lag, flushing := false, pending := [] },
    written := [], writtenFrames := 0, releases := 0 }

/-- One iteration of the main loop of `impl::run` (`src/writer.cpp:96-125`)
on a popped frame: scale, `avcodec_send_frame`, `avcodec_receive_packet`;
on `EAGAIN`/`EOF` release the slot and continue; on a ready packet rescale
its timestamps, `av_write_frame` it, bump `written_frames`, then release the
slot.  Either way the consumed slot is released exactly once. -/
def writerIteration (s : WriterState) (pts : Int) : WriterState :=
  let e1 := avcodec_send_frame s.enc pts
  match avcodec_receive_packet e1 with
  | (e2, none) =>
    { s with enc := e2, releases := s.releases + 1 }
  | (e2, some p) =>
    { s with enc := e2, written := s.written ++ [p],
             writtenFrames := s.writtenFrames + 1, releases := s.releases + 1 }

/-- The main loop over the frames popped from the queue, in FIFO order. -/
def writerLoop (s : WriterState) : List Int → WriterState
  | [] => s
  | p :: ps => writerLoop (writerIteration s p) ps

/-- The post-loop flush of `impl::run` (`src/writer.cpp:126-132`): only when
at least one frame was written, send the end-of-stream marker
(`avcodec_send_frame(ocodec, 0)`), call `avcodec_receive_packet` **once**,
and `av_write_frame` the single drained packet.  (When the receive yields
nothing the code still calls `av_write_frame` on the stale packet; the model
records no stamped write in that case.) -/
def writerFlush (s : WriterState) : WriterState :=
  if s.writtenFrames ≠ 0 then
    let e1 := { s.enc with flushing := true }
    match avcodec_receive_packet e1 with
    | (e2, some p) => { s with enc := e2, written := s.written ++ [p] }
    | (e2, none) => { s with enc := e2 }
  else s

/-- Full run of the writer pipeline on the list of popped frame stamps. -/
def writerRun (lag : Nat) (ps : List Int) : WriterState :=
  writerFlush (writerLoop (writerInit lag) ps)

/-- The frame stamps `pvals a k = [a, a+1, …, a+k-1]` (the writer assigns
`oframe->pts = iter++` with `iter` starting at 1, so a `K`-unit feed is
`pvals 1 K`). -/
def pvals (a : Int) (k : Nat) : List Int :=
  (List.range k).map (fun (i : Nat) => a + (i : Int))

/-! ## Capture-session teardown (`xcompgrab_read_close`,
`src/xcompgrab.c:712-754`).

The session context fields relevant to teardown: handles are modelled as
`Nat` (0 = null), the slice-array pointers of the two backend pools likewise
(`pvt_cleanup_membuffer`/`pvt_cleanup_pbobuffer` free them when non-null but
never zero them), and the per-slice PBO ids as a list.  `read_close` returns
the updated context together with the ordered list of release actions it
performed on this call. -/

def BUF_SYSTEM : Nat := 0
def BUF_INTERNAL : Nat := 1
def BUF_GLPBO : Nat := 2

structure XCompGrabCtx where
  xdisplay : Nat
  win_pixmap : Nat
  gl_ctx : Nat
  gl_pixmap : Nat
  gl_texmap : Nat
  framebuf_type : Nat
  pvtSlicesPtr : Nat
  pboSlicesPtr : Nat
  pboIds : List Nat
  deriving Repr, DecidableEq

inductive CloseAction where
  | freeMemSlices
  | deletePBO (pbo : Nat)
  | freePBOSlices
  | deleteTexture
  | destroyContext
  | freePixmap
  | closeDisplay
  | unredirectWindow
  deriving Repr, DecidableEq

/-- The buffer-pool portion of `xcompgrab_read_close`
(`src/xcompgrab.c:716-734`): for `BUF_INTERNAL`, `pvt_cleanup_membuffer`
frees the slice buffers and the slice array when the array pointer is
non-null; for `BUF_GLPBO`, when display, GL pixmap and GL context are all
live, each non-zero PBO id is deleted, and then `pvt_cleanup_pbobuffer`
frees the slice array when non-null.  Neither cleanup zeroes the slice-array
pointer or the PBO ids. -/
def closeBufActions (c : XCompGrabCtx) : List CloseAction :=
  if c.framebuf_type = BUF_INTERNAL then
    if c.pvtSlicesPtr ≠ 0 then [CloseAction.freeMemSlices] else []
  else if c.framebuf_type = BUF_GLPBO then
    (if c.xdisplay ≠ 0 ∧ c.gl_pixmap ≠ 0 ∧ c.gl_ctx ≠ 0 then
      (c.pboIds.filter (· ≠ 0)).map CloseAction.deletePBO
    else []) ++
    (if c.pboSlicesPtr ≠ 0 then [CloseAction.freePBOSlices] else [])
  else []

/-- `xcompgrab_read_close` (`src/xcompgrab.c:712-754`): buffer-pool cleanup,
then — each step guarded by null checks — delete the GL texture, destroy the
GL context, free the X pixmap, close the display, zeroing `gl_texmap`,
`gl_ctx`, `win_pixmap` and `xdisplay` as it goes.  The routine contains no
`XCompositeUnredirectWindow` call and never touches `gl_pixmap`,
`pvtSlicesPtr`, `pboSlicesPtr` or `pboIds`. -/
def xcompgrab_read_close (c : XCompGrabCtx) : XCompGrabCtx × List CloseAction :=
  let bufActs := closeBufActions c
  let texStep : List CloseAction × Nat :=
    if c.gl_texmap ≠ 0 ∧ c.xdisplay ≠ 0 ∧ c.gl_pixmap ≠ 0 ∧ c.gl_ctx ≠ 0 then
      ([CloseAction.deleteTexture], 0)
    else ([], c.gl_texmap)
  let ctxStep : List CloseAction × Nat :=
    if c.gl_ctx ≠ 0 ∧ c.xdisplay ≠ 0 then ([CloseAction.destroyContext], 0)
    else ([], c.gl_ctx)
  let pixStep : List CloseAction × Nat :=
    if c.win_pixmap ≠ 0 ∧ c.xdisplay ≠ 0 then ([CloseAction.freePixmap], 0)
    else ([], c.win_pixmap)
  let dispStep : List CloseAction × Nat :=
    if c.xdisplay ≠ 0 then ([CloseAction.closeDisplay], 0)
    else ([], c.xdisplay)
  ({ c with gl_texmap := texStep.2, gl_ctx := ctxStep.2,
            win_pixmap := pixStep.2, xdisplay := dispStep.2 },
   bufActs ++ texStep.1 ++ ctxStep.1 ++ pixStep.1 ++ dispStep.1)

end Replayer

namespace Replayer

/-! ## Theorems for claims C1, C4, C5, C6, C7, C8, C10 -/

/-- The pacing wait loop lands exactly on the anchor when the clock has not
yet reached it, and returns immediately otherwise. -/
theorem pacingWait_eq_max (tf clock : Int) : pacingWait tf clock = max clock tf := by
  rw [pacingWait]
  by_cases h : tf - clock ≤ 0
  · simp only [h, dif_pos]
    omega
  · simp only [h, dif_neg, not_false_iff]
    rw [pacingWait]
    have h0 : tf - (clock + (tf - clock)) ≤ 0 := by omega
    simp only [h0, dif_pos]
    omega

/-- The stamps of an `n`-tick steady-state run started with the wall clock at
most one frame duration behind the next anchor: tick `i` is stamped with
anchor `tf + (i+1)·d`. -/
theorem captureRun_eq (n : Nat) (d tf clock : Int) (hd : 0 ≤ d)
    (hclock : clock ≤ tf + d) :
    captureRun n d tf clock =
      (List.range n).map (fun (i : Nat) => tf + ((i : Int) + 1) * d) := by
  induction n generalizing tf clock with
  | zero => rfl
  | succ n ih =>
    have hpts : pacingWait (tf + d) clock = tf + d := by
      rw [pacingWait_eq_max]; omega
    have hnext : tf + d ≤ (tf + d) + d := by omega
    simp only [captureRun, xcompgrab_read_packet_pacing, hpts,
      ih (tf + d) (tf + d) hnext, List.range_succ_eq_map, List.map_cons,
      List.map_map]
    congr 1
    · push_cast
      ring
    · apply List.map_congr_left
      intro i _
      simp only [Function.comp_apply]
      push_cast
      ring

/-- **C1.** On a steady-state capture tick (wall clock at most one frame
duration behind the new anchor), `xcompgrab_read_packet` advances the pacing
anchor by exactly one fixed frame duration, does not return before the wall
clock has reached the anchor, and stamps the packet with the anchor time and
the fixed duration; consequently a run of `n` ticks with instantaneous
capture work starting at the anchor emits stamps `tf + d, tf + 2d, …`,
monotonically increasing and spaced exactly one frame duration apart. -/
theorem xcompgrab_read_packet_paces (d tf clock : Int) (n : Nat)
    (hd : 0 < d) (hclock : clock ≤ tf + d) :
    (xcompgrab_read_packet_pacing d tf clock).timeFrame = tf + d ∧
    (xcompgrab_read_packet_pacing d tf clock).pts = tf + d ∧
    (xcompgrab_read_packet_pacing d tf clock).duration = d ∧
    tf + d ≤ (xcompgrab_read_packet_pacing d tf clock).clockAfter ∧
    captureRun n d tf tf =
      (List.range n).map (fun (i : Nat) => tf + ((i : Int) + 1) * d) ∧
    List.Chain' (fun a b => a < b ∧ b - a = d) (captureRun n d tf tf) := by
  have hpts : pacingWait (tf + d) clock = tf + d := by
    rw [pacingWait_eq_max]; omega
  have hrun := captureRun_eq n d tf tf (le_of_lt hd) (by omega)
  refine ⟨rfl, ?_, rfl, ?_, hrun, ?_⟩
  · simp [xcompgrab_read_packet_pacing, hpts]
  · simp [xcompgrab_read_packet_pacing, hpts]
  · rw [hrun]
    rcases n with _ | m
    · simp
    · rw [List.chain'_map, List.chain'_range_succ]
      intro i _
      constructor
      · push_cast; nlinarith
      · push_cast; ring

theorem xcompgrab_read_packet_paces_witness :
    (0 : Int) < 100000 ∧ (0 : Int) ≤ 0 + 100000 ∧
    ((xcompgrab_read_packet_pacing 100000 0 0).timeFrame = 0 + 100000 ∧
     (xcompgrab_read_packet_pacing 100000 0 0).pts = 0 + 100000 ∧
     (xcompgrab_read_packet_pacing 100000 0 0).duration = 100000 ∧
     (0 : Int) + 100000 ≤ (xcompgrab_read_packet_pacing 100000 0 0).clockAfter ∧
     captureRun 10 100000 0 0 =
       (List.range 10).map (fun (i : Nat) => 0 + ((i : Int) + 1) * 100000) ∧
     List.Chain' (fun a b => a < b ∧ b - a = 100000) (captureRun 10 100000 0 0)) :=
  ⟨by decide, by decide,
   xcompgrab_read_packet_paces 100000 0 0 10 (by decide) (by decide)⟩

/-- **C4 (failing input).** Releasing an unclaimed slice — here a double
release: the first release resets the slice, the second finds its `used`
flag already 0 and the CAS fails — takes the branch that the source leaves
as the bare comment `/* We should log fatal error */`: the pool state is
unchanged, nothing is logged and the process does not abort, for both the
slab (`pvt_free_membuffer`) and GPU-mapped (`pvt_free_pbobuffer`) backends.
This contradicts both the spec (log and abort) and the code's own comment. -/
theorem pvt_free_silent_on_double_release :
    pvt_free_membuffer [⟨true, 7⟩] 7 = ([⟨false, 7⟩], FreeOutcome.reset) ∧
    pvt_free_membuffer [⟨false, 7⟩] 7 =
      ([⟨false, 7⟩], FreeOutcome.silentInvariantMiss) ∧
    pvt_free_pbobuffer ⟨1, 9, true⟩ 9 = (⟨1, 9, false⟩, FreeOutcome.reset) ∧
    pvt_free_pbobuffer ⟨1, 9, false⟩ 9 =
      (⟨1, 9, false⟩, FreeOutcome.silentInvariantMiss) := by
  decide

/-- Helper for C6: a fully-claimed slab pool yields no buffer. -/
theorem pvt_alloc_membuffer_all_used (ms : List XCompGrabSlice)
    (h : ∀ s ∈ ms, s.used = true) : (pvt_alloc_membuffer ms).1 = none := by
  induction ms with
  | nil => rfl
  | cons s rest ih =>
    have hs : s.used = true := h s (List.mem_cons_self s rest)
    simp only [pvt_alloc_membuffer, hs]
    exact ih fun x hx => h x (List.mem_cons_of_mem s hx)

/-- Helper for C6: a fully-claimed GPU-mapped pool yields no slice. -/
theorem pvt_alloc_pbobuffer_all_used (ps : List XCompGrabPBOSlice)
    (h : ∀ s ∈ ps, s.used = true) : (pvt_alloc_pbobuffer ps).1 = none := by
  induction ps with
  | nil => rfl
  | cons s rest ih =>
    have hs : s.used = true := h s (List.mem_cons_self s rest)
    simp only [pvt_alloc_pbobuffer, hs]
    simp [ih fun x hx => h x (List.mem_cons_of_mem s hx)]

/-- Helper for C6: freeing the slab slice holding buffer `d` in a fully
claimed pool makes the very next `obtain` return that buffer. -/
theorem pvt_alloc_after_free_membuffer (ms : List XCompGrabSlice) (d : Nat)
    (hall : ∀ s ∈ ms, s.used = true) (hmem : ∃ s ∈ ms, s.buf = d) :
    (pvt_alloc_membuffer (pvt_free_membuffer ms d).1).1 = some d := by
  induction ms with
  | nil => simp at hmem
  | cons s rest ih =>
    have hs : s.used = true := hall s (List.mem_cons_self s rest)
    by_cases hb : s.buf = d
    · simp [pvt_free_membuffer, hb, hs, pvt_alloc_membuffer]
    · have hrest : ∃ x ∈ rest, x.buf = d := by
        rcases hmem with ⟨x, hx, hxd⟩
        rcases List.mem_cons.mp hx with h | h
        · exact absurd (h ▸ hxd) hb
        · exact ⟨x, h, hxd⟩
      simp only [pvt_free_membuffer, hb, if_false, pvt_alloc_membuffer, hs]
      exact ih (fun x hx => hall x (List.mem_cons_of_mem s hx)) hrest

/-- Helper for C6: freeing the GPU-mapped slice at index `j` of a fully
claimed pool makes the very next `obtain` return exactly that slice. -/
theorem pvt_alloc_after_free_pbobuffer (ps : List XCompGrabPBOSlice) (j : Nat)
    (hall : ∀ s ∈ ps, s.used = true) (hj : j < ps.length) :
    (pvt_alloc_pbobuffer (ps.set j (pvt_free_pbobuffer ps[j] ps[j].ptr).1)).1 =
      some j := by
  induction ps generalizing j with
  | nil => simp at hj
  | cons s rest ih =>
    have hs : s.used = true := hall s (List.mem_cons_self s rest)
    cases j with
    | zero =>
      simp [pvt_free_pbobuffer, hs, pvt_alloc_pbobuffer]
    | succ j =>
      have hj' : j < rest.length := by simpa using hj
      have := ih j (fun x hx => hall x (List.mem_cons_of_mem s hx)) hj'
      simp only [List.getElem_cons_succ, List.set_cons_succ,
        pvt_alloc_pbobuffer, hs]
      simp [this]

/-- **C6.** Under the slab and GPU-mapped strategies with every slice
claimed, `obtain` deterministically returns none (it is a pure scan, it
cannot block); and once any one slice is released — slab slice holding
buffer `d`, GPU-mapped slice at index `j` — a single subsequent `obtain`
succeeds and returns exactly the released slice. -/
theorem backend_obtain_backpressure (ms : List XCompGrabSlice) (d : Nat)
    (ps : List XCompGrabPBOSlice) (j : Nat)
    (hmAll : ∀ s ∈ ms, s.used = true) (hmMem : ∃ s ∈ ms, s.buf = d)
    (hpAll : ∀ s ∈ ps, s.used = true) (hj : j < ps.length) :
    (pvt_alloc_membuffer ms).1 = none ∧
    (pvt_alloc_membuffer (pvt_free_membuffer ms d).1).1 = some d ∧
    (pvt_alloc_pbobuffer ps).1 = none ∧
    (pvt_alloc_pbobuffer
        (ps.set j (pvt_free_pbobuffer ps[j] ps[j].ptr).1)).1 = some j :=
  ⟨pvt_alloc_membuffer_all_used ms hmAll,
   pvt_alloc_after_free_membuffer ms d hmAll hmMem,
   pvt_alloc_pbobuffer_all_used ps hpAll,
   pvt_alloc_after_free_pbobuffer ps j hpAll hj⟩

theorem backend_obtain_backpressure_witness :
    (∀ s ∈ [(⟨true, 5⟩ : XCompGrabSlice), ⟨true, 7⟩], s.used = true) ∧
    (∃ s ∈ [(⟨true, 5⟩ : XCompGrabSlice), ⟨true, 7⟩], s.buf = 7) ∧
    (∀ s ∈ [(⟨1, 11, true⟩ : XCompGrabPBOSlice), ⟨2, 12, true⟩], s.used = true) ∧
    ((pvt_alloc_membuffer [⟨true, 5⟩, ⟨true, 7⟩]).1 = none ∧
     (pvt_alloc_membuffer (pvt_free_membuffer [⟨true, 5⟩, ⟨true, 7⟩] 7).1).1 =
       some 7 ∧
     (pvt_alloc_pbobuffer [⟨1, 11, true⟩, ⟨2, 12, true⟩]).1 = none ∧
     (pvt_alloc_pbobuffer
         (([(⟨1, 11, true⟩ : XCompGrabPBOSlice), ⟨2, 12, true⟩]).set 1
           (pvt_free_pbobuffer
             ([(⟨1, 11, true⟩ : XCompGrabPBOSlice), ⟨2, 12, true⟩])[1]
             (([(⟨1, 11, true⟩ : XCompGrabPBOSlice), ⟨2, 12, true⟩])[1]).ptr).1)).1 =
       some 1) :=
  ⟨by decide, by decide, by decide,
   backend_obtain_backpressure [⟨true, 5⟩, ⟨true, 7⟩] 7
     [⟨1, 11, true⟩, ⟨2, 12, true⟩] 1
     (by decide) (by decide) (by decide) (by decide)⟩

/-- **C5.** For every frame slot, `frame_holder::release` atomically resets
the slot from claimed (`used = true`) to free, and calling `release` on a
slot that is already free takes the fatal invariant path, raising the
`"This is not possible!"` error — it never silently succeeds. -/
theorem frame_holder_release_fatal_on_free (fh : frame_holder) :
    (fh.used = true →
      fh.release = Except.ok { fh with used := false }) ∧
    (fh.used = false →
      fh.release = Except.error "This is not possible!" ∧
        ∀ fh' : frame_holder, fh.release ≠ Except.ok fh') := by
  constructor
  · intro h
    simp [frame_holder.release, h]
  · intro h
    simp [frame_holder.release, h]

theorem frame_holder_release_fatal_on_free_witness :
    (frame_holder.release ⟨0, true⟩ = Except.ok ⟨0, false⟩) ∧
    (frame_holder.release ⟨0, false⟩ = Except.error "This is not possible!") :=
  ⟨(frame_holder_release_fatal_on_free ⟨0, true⟩).1 rfl,
   ((frame_holder_release_fatal_on_free ⟨0, false⟩).2 rfl).1⟩

/-- `get_one` on a pool whose holders are all claimed: scans to the end,
changes nothing, returns null. -/
theorem get_one_all_used (pool : List frame_holder)
    (h : ∀ x ∈ pool, x.used = true) :
    frame_buffers.get_one pool = (none, pool) := by
  induction pool with
  | nil => rfl
  | cons fh rest ih =>
    have hfh : fh.used = true := h fh (List.mem_cons_self fh rest)
    have hrest : ∀ x ∈ rest, x.used = true := fun x hx => h x (List.mem_cons_of_mem fh hx)
    simp only [frame_buffers.get_one, frame_holder.try_lock, hfh]
    simp [ih hrest]

/-- **C7.** `frame_buffers::get_one` scans the slots in index order attempting
an atomic free→claimed claim on each: on a pool that decomposes as claimed
prefix `l₁`, first free slot `fh`, remainder `l₂`, it returns index
`l₁.length` (the first slot it successfully claims), marks exactly that slot
claimed, and leaves every other slot unchanged; on a pool whose slots are all
claimed it returns none and changes no slot. -/
theorem frame_buffers_get_one_spec (l₁ l₂ pool : List frame_holder)
    (fh : frame_holder) (h1 : ∀ x ∈ l₁, x.used = true) (h2 : fh.used = false)
    (h3 : ∀ x ∈ pool, x.used = true) :
    frame_buffers.get_one (l₁ ++ fh :: l₂) =
      (some l₁.length, l₁ ++ { fh with used := true } :: l₂) ∧
    frame_buffers.get_one pool = (none, pool) := by
  refine ⟨?_, get_one_all_used pool h3⟩
  induction l₁ with
  | nil =>
    simp [frame_buffers.get_one, frame_holder.try_lock, h2]
  | cons x rest ih =>
    have hx : x.used = true := h1 x (List.mem_cons_self x rest)
    have hrest : ∀ y ∈ rest, y.used = true := fun y hy => h1 y (List.mem_cons_of_mem x hy)
    simp only [List.cons_append, frame_buffers.get_one, frame_holder.try_lock, hx]
    simp [ih hrest]

theorem frame_buffers_get_one_spec_witness :
    frame_buffers.get_one [⟨10, true⟩, ⟨11, false⟩, ⟨12, false⟩] =
      (some 1, [⟨10, true⟩, ⟨11, true⟩, ⟨12, false⟩]) ∧
    frame_buffers.get_one [⟨10, true⟩, ⟨11, true⟩] =
      (none, [⟨10, true⟩, ⟨11, true⟩]) := by
  have h := frame_buffers_get_one_spec [⟨10, true⟩] [⟨12, false⟩]
    [⟨10, true⟩, ⟨11, true⟩] ⟨11, false⟩
    (by decide) (by decide) (by decide)
  exact ⟨h.1, h.2⟩

/-- **C8.** The HandoffQueue (`utils::concurrent_deque`) preserves FIFO order
with no reordering: pushing A, B, C in that order onto an empty queue and
popping three times yields A, then B, then C (each pop also leaving exactly
the expected remainder). -/
theorem concurrent_deque_fifo {α : Type} (a b c : α) :
    concurrent_deque.pop
        (concurrent_deque.push (concurrent_deque.push (concurrent_deque.push [] a) b) c) =
      some (a, [b, c]) ∧
    concurrent_deque.pop [b, c] = some (b, [c]) ∧
    concurrent_deque.pop [c] = some (c, ([] : List α)) := by
  refine ⟨?_, rfl, rfl⟩
  simp [concurrent_deque.push, concurrent_deque.pop]

/-- **C10.** `impl::stop` is idempotent and restores the startable state:
stopping when no thread is running returns immediately without effect; after
any `stop` the run flag is back to `true` and the thread handle cleared, so a
subsequent `start` on the same writer succeeds, while `start` on an
already-running writer raises the `"already running"` error. -/
theorem writer_stop_idempotent_restores_startable (w : WriterImpl) :
    (w.threadRunning = false → writer_stop w = w) ∧
    writer_stop (writer_stop w) = writer_stop w ∧
    (w.threadRunning = true →
      writer_stop w = { runFlag := true, threadRunning := false } ∧
      writer_start (writer_stop w) =
        Except.ok { runFlag := true, threadRunning := true }) ∧
    (w.threadRunning = true → writer_start w = Except.error "already running") := by
  unfold writer_stop writer_start
  by_cases h : w.threadRunning
  · simp [h]
  · simp at h
    simp [h]

/-! ### Writer pipeline: C2 and C9 -/

theorem pvals_succ (a : Int) (n : Nat) : pvals a (n + 1) = pvals a n ++ [a + n] := by
  simp [pvals, List.range_succ]

theorem pvals_cons (a : Int) (n : Nat) : pvals a (n + 1) = a :: pvals (a + 1) n := by
  simp only [pvals, List.range_succ_eq_map, List.map_cons, List.map_map]
  congr 1
  · simp
  · apply List.map_congr_left
    intro i _
    simp only [Function.comp_apply]
    push_cast
    ring

theorem pvals_length (a : Int) (n : Nat) : (pvals a n).length = n := by
  simp [pvals]

theorem writerLoop_append (s : WriterState) (xs : List Int) (x : Int) :
    writerLoop s (xs ++ [x]) = writerIteration (writerLoop s xs) x := by
  induction xs generalizing s with
  | nil => rfl
  | cons y ys ih => simp [writerLoop, ih]

/-- One iteration when the encoder still buffers (`EAGAIN`): only the slot
release and the encoder's pending queue change. -/
theorem writerIteration_eagain (s : WriterState) (p : Int)
    (hf : s.enc.flushing = false) (h : ¬ s.enc.lag < s.enc.pending.length + 1) :
    writerIteration s p =
      { s with enc := { s.enc with pending := s.enc.pending ++ [p] },
               releases := s.releases + 1 } := by
  unfold writerIteration avcodec_send_frame avcodec_receive_packet
  simp [hf, h]

/-- One iteration when the encoder emits: the oldest pending frame is written
and the slot released. -/
theorem writerIteration_emit (s : WriterState) (p q : Int) (rest : List Int)
    (hpend : s.enc.pending ++ [p] = q :: rest)
    (h : s.enc.lag < s.enc.pending.length + 1) :
    writerIteration s p =
      { s with enc := { s.enc with pending := rest },
               written := s.written ++ [q],
               writtenFrames := s.writtenFrames + 1,
               releases := s.releases + 1 } := by
  unfold writerIteration avcodec_send_frame avcodec_receive_packet
  have hlen : s.enc.lag < (s.enc.pending ++ [p]).length := by
    simpa using h
  rw [hpend] at hlen ⊢
  have hlen' : s.enc.lag < rest.length + 1 := by simpa using hlen
  simp [hlen']

/-- Invariant of the writer loop fed stamps `1..k` against a lag-`L`
encoder: the encoder holds the most recent `min k L` stamps, the packets
written so far are `1..k−L` in submission order, and every popped unit has
been released. -/
theorem writerLoop_inv (L k : Nat) :
    writerLoop (writerInit L) (pvals 1 k) =
      { enc := { lag := L, flushing := false,
                 pending := pvals (1 + ((k - min k L : Nat) : Int)) (min k L) },
        written := pvals 1 (k - L), writtenFrames := k - L, releases := k } := by
  induction k with
  | zero => simp [writerLoop, writerInit, pvals]
  | succ k ih =>
    rw [pvals_succ, writerLoop_append, ih]
    by_cases hk : k < L
    · have hmin : min k L = k := by omega
      have hmin' : min (k + 1) L = k + 1 := by omega
      have hsub : k - L = 0 := by omega
      have hsub' : k + 1 - L = 0 := by omega
      rw [writerIteration_eagain _ _ rfl
        (by simp only [pvals_length, hmin]; omega)]
      simp only [hmin, hmin', hsub, hsub', Nat.sub_self, Nat.cast_zero, add_zero]
      rw [pvals_succ]
    · have hge : L ≤ k := by omega
      have hmin : min k L = L := by omega
      have hmin' : min (k + 1) L = L := by omega
      have hkey : pvals (1 + ((k - L : Nat) : Int)) L ++ [(1 : Int) + (k : Int)] =
          (1 + ((k - L : Nat) : Int)) :: pvals (1 + ((k - L : Nat) : Int) + 1) L := by
        have h1 : (1 : Int) + (k : Int) = (1 + ((k - L : Nat) : Int)) + (L : Int) := by
          omega
        rw [h1, ← pvals_succ, pvals_cons]
      rw [writerIteration_emit _ _ _ _ (by simpa only [hmin] using hkey)
        (by simp only [pvals_length, hmin]; omega)]
      have e2 : k + 1 - L = (k - L) + 1 := by omega
      have e1 : (1 : Int) + ((k - L : Nat) : Int) + 1 =
          1 + ((k + 1 - L : Nat) : Int) := by omega
      simp only [hmin, hmin', e2, pvals_succ, e1]

/-- **C2 (counterexample).** Feed the WriterPipeline 5 units against an
encoder that buffers 2 before emitting: the loop writes packets 1,2,3, the
single-packet flush writes packet 4, and packet 5 is never drained — 4
packets are written by pipeline completion, not 5 as the claim states. -/
theorem writer_five_units_lag_two_writes_four :
    (writerRun 2 (pvals 1 5)).written = pvals 1 4 ∧
    (writerRun 2 (pvals 1 5)).written.length = 4 ∧
    ¬ (writerRun 2 (pvals 1 5)).written.length = 5 := by
  decide

/-- **C2 (amended).** On stop the writer submits the end-of-stream marker and
drains exactly **one** buffered packet (a single `avcodec_receive_packet` /
`av_write_frame` pair), so a pipeline fed `K` units against an encoder
buffering `L ≥ 1` (with `K > L`) writes exactly `K − L + 1` packets in
submission order — `K − L` during the loop plus the one flushed packet; the
remaining `L − 1` buffered frames are dropped at finalization. -/
theorem writer_flush_drains_single_packet (K L : Nat) (hL : 1 ≤ L) (hK : L < K) :
    (writerRun L (pvals 1 K)).written = pvals 1 (K - L + 1) ∧
    (writerRun L (pvals 1 K)).written.length = K - L + 1 := by
  have hloop := writerLoop_inv L K
  have hmin : min K L = L := by omega
  rw [hmin] at hloop
  have hwf : K - L ≠ 0 := by omega
  obtain ⟨M, hM⟩ : ∃ M, L = M + 1 := ⟨L - 1, by omega⟩
  have hpend : pvals (1 + ((K - L : Nat) : Int)) L =
      (1 + ((K - L : Nat) : Int)) :: pvals (1 + ((K - L : Nat) : Int) + 1) M := by
    rw [hM]
    exact pvals_cons _ M
  have hwritten : (writerRun L (pvals 1 K)).written = pvals 1 (K - L + 1) := by
    unfold writerRun
    rw [hloop]
    unfold writerFlush avcodec_receive_packet
    dsimp only
    rw [if_pos hwf, hpend,
      if_pos (Or.inl ⟨rfl, by simp⟩ :
        (true = true ∧
          ((1 + ((K - L : Nat) : Int)) ::
            pvals (1 + ((K - L : Nat) : Int) + 1) M) ≠ []) ∨
        L < ((1 + ((K - L : Nat) : Int)) ::
          pvals (1 + ((K - L : Nat) : Int) + 1) M).length)]
    dsimp only
    rw [← pvals_succ]
  refine ⟨hwritten, ?_⟩
  rw [hwritten]
  simp [pvals]

theorem writer_flush_drains_single_packet_witness :
    1 ≤ 2 ∧ 2 < 5 ∧
    ((writerRun 2 (pvals 1 5)).written = pvals 1 (5 - 2 + 1) ∧
     (writerRun 2 (pvals 1 5)).written.length = 5 - 2 + 1) :=
  ⟨by decide, by decide, writer_flush_drains_single_packet 5 2 (by decide) (by decide)⟩

/-- **C9.** Each iteration of the writer loop releases the popped unit's
frame slot back to its backend exactly once — in the ready-packet branch and
in the needs-more-input branch alike — so a loop that pops `ps` performs
exactly `ps.length` releases however the encoder buffers. -/
theorem writer_releases_each_unit_once (s : WriterState) (p : Int) (ps : List Int) :
    (writerIteration s p).releases = s.releases + 1 ∧
    (writerLoop s ps).releases = s.releases + ps.length := by
  have hiter : ∀ (t : WriterState) (q : Int),
      (writerIteration t q).releases = t.releases + 1 := by
    intro t q
    unfold writerIteration
    rcases h : avcodec_receive_packet (avcodec_send_frame t.enc q) with ⟨e2, op⟩
    cases op <;> simp [h]
  refine ⟨hiter s p, ?_⟩
  induction ps generalizing s with
  | nil => simp [writerLoop]
  | cons q qs ih =>
    simp only [writerLoop, ih, hiter, List.length_cons]
    omega

theorem writer_stop_idempotent_restores_startable_witness :
    writer_stop { runFlag := false, threadRunning := true } =
      { runFlag := true, threadRunning := false } ∧
    writer_start (writer_stop { runFlag := false, threadRunning := true }) =
      Except.ok { runFlag := true, threadRunning := true } ∧
    writer_start { runFlag := true, threadRunning := true } =
      Except.error "already running" := by
  have h := writer_stop_idempotent_restores_startable
    { runFlag := false, threadRunning := true }
  exact ⟨(h.2.2.1 rfl).1, (h.2.2.1 rfl).2, h.2.2.2 rfl⟩

/-! ### Capture teardown: C3 -/

/-- The buffer-pool cleanup can only free slice arrays or delete PBO ids; in
particular it never performs the hand-off unredirection. -/
theorem closeBufActions_shape (c : XCompGrabCtx) :
    ∀ a ∈ closeBufActions c,
      a = CloseAction.freeMemSlices ∨ (∃ p, a = CloseAction.deletePBO p) ∨
        a = CloseAction.freePBOSlices := by
  intro a ha
  unfold closeBufActions at ha
  by_cases h1 : c.framebuf_type = BUF_INTERNAL
  · rw [if_pos h1] at ha
    by_cases h2 : c.pvtSlicesPtr ≠ 0
    · rw [if_pos h2] at ha
      simp only [List.mem_singleton] at ha
      exact Or.inl ha
    · rw [if_neg h2] at ha
      simp at ha
  · rw [if_neg h1] at ha
    by_cases h3 : c.framebuf_type = BUF_GLPBO
    · rw [if_pos h3] at ha
      rcases List.mem_append.mp ha with h4 | h4
      · by_cases h5 : c.xdisplay ≠ 0 ∧ c.gl_pixmap ≠ 0 ∧ c.gl_ctx ≠ 0
        · rw [if_pos h5] at h4
          rcases List.mem_map.mp h4 with ⟨p, _, hp⟩
          exact Or.inr (Or.inl ⟨p, hp.symm⟩)
        · rw [if_neg h5] at h4
          simp at h4
      · by_cases h6 : c.pboSlicesPtr ≠ 0
        · rw [if_pos h6] at h4
          simp only [List.mem_singleton] at h4
          exact Or.inr (Or.inr h4)
        · rw [if_neg h6] at h4
          simp at h4
    · rw [if_neg h3] at ha
      simp at ha

/-- Once the display handle is null every guarded X/GL step of
`xcompgrab_read_close` is skipped: the call performs only the (unguarded
against repetition) buffer-pool cleanup and leaves the context unchanged. -/
theorem close_when_display_null (c : XCompGrabCtx) (hx : c.xdisplay = 0) :
    xcompgrab_read_close c = (c, closeBufActions c) := by
  unfold xcompgrab_read_close
  simp [hx]
  rw [← hx]

/-- With the system-memory strategy there is no backend pool, so the
buffer-cleanup portion of close is empty. -/
theorem closeBufActions_system (c : XCompGrabCtx)
    (h : c.framebuf_type = BUF_SYSTEM) : closeBufActions c = [] := by
  unfold closeBufActions
  rw [h]
  simp [BUF_SYSTEM, BUF_INTERNAL, BUF_GLPBO]

/-- Closing a fully-open session releases the X/GL handles in order
buffers → texture → context → pixmap → display and zeroes each handle. -/
theorem close_fully_open (c : XCompGrabCtx)
    (h1 : c.xdisplay ≠ 0) (h2 : c.win_pixmap ≠ 0) (h3 : c.gl_ctx ≠ 0)
    (h4 : c.gl_texmap ≠ 0) (h5 : c.gl_pixmap ≠ 0) :
    xcompgrab_read_close c =
      ({ c with gl_texmap := 0, gl_ctx := 0, win_pixmap := 0, xdisplay := 0 },
       closeBufActions c ++
         [CloseAction.deleteTexture, CloseAction.destroyContext,
          CloseAction.freePixmap, CloseAction.closeDisplay]) := by
  unfold xcompgrab_read_close
  simp [h1, h2, h3, h4, h5]

/-- **C3 (counterexample).** A fully-open slab-strategy session
(`framebuf_type = BUF_INTERNAL`, slice array allocated at pointer 6): the
first close releases buffers → texture → context → pixmap → display but
contains no hand-off unredirection step and leaves `pvt_framebuf.slices`
un-zeroed (still 6), so a second close repeats the slice-array cleanup — a
double free, not a no-op: close is not idempotent as the claim states. -/
theorem xcompgrab_read_close_not_idempotent :
    (xcompgrab_read_close (⟨1, 2, 3, 4, 5, 1, 6, 0, []⟩ : XCompGrabCtx)).2 =
      [CloseAction.freeMemSlices, CloseAction.deleteTexture,
       CloseAction.destroyContext, CloseAction.freePixmap,
       CloseAction.closeDisplay] ∧
    (xcompgrab_read_close (⟨1, 2, 3, 4, 5, 1, 6, 0, []⟩ : XCompGrabCtx)).1.pvtSlicesPtr = 6 ∧
    (xcompgrab_read_close
        (xcompgrab_read_close (⟨1, 2, 3, 4, 5, 1, 6, 0, []⟩ : XCompGrabCtx)).1).2 =
      [CloseAction.freeMemSlices] ∧
    CloseAction.unredirectWindow ∉
      (xcompgrab_read_close (⟨1, 2, 3, 4, 5, 1, 6, 0, []⟩ : XCompGrabCtx)).2 := by
  decide

/-- **C3 (amended).** `xcompgrab_read_close` guards every release step with
null checks and, from a fully-open session, releases in the order
buffer pool → GPU texture → GPU context → X pixmap → display connection,
zeroing the four handle fields so that a second close performs no operation
on them; but it performs no hand-off unredirection, and the buffer-pool
slice-array pointers are never zeroed, so the second close's only actions
are repeated pool cleanups (a double free under the slab/PBO strategies);
close is idempotent precisely in the system-memory configuration. -/
theorem xcompgrab_read_close_amended (c : XCompGrabCtx)
    (h1 : c.xdisplay ≠ 0) (h2 : c.win_pixmap ≠ 0) (h3 : c.gl_ctx ≠ 0)
    (h4 : c.gl_texmap ≠ 0) (h5 : c.gl_pixmap ≠ 0) :
    (xcompgrab_read_close c).2 =
      closeBufActions c ++
        [CloseAction.deleteTexture, CloseAction.destroyContext,
         CloseAction.freePixmap, CloseAction.closeDisplay] ∧
    (xcompgrab_read_close c).1.gl_texmap = 0 ∧
    (xcompgrab_read_close c).1.gl_ctx = 0 ∧
    (xcompgrab_read_close c).1.win_pixmap = 0 ∧
    (xcompgrab_read_close c).1.xdisplay = 0 ∧
    CloseAction.unredirectWindow ∉ (xcompgrab_read_close c).2 ∧
    (∀ a ∈ (xcompgrab_read_close (xcompgrab_read_close c).1).2,
      a = CloseAction.freeMemSlices ∨ a = CloseAction.freePBOSlices) ∧
    (c.framebuf_type = BUF_SYSTEM →
      xcompgrab_read_close (xcompgrab_read_close c).1 =
        ((xcompgrab_read_close c).1, [])) := by
  have key := close_fully_open c h1 h2 h3 h4 h5
  have hx1 : (xcompgrab_read_close c).1.xdisplay = 0 := by rw [key]
  have hsecond := close_when_display_null (xcompgrab_read_close c).1 hx1
  refine ⟨by rw [key], by rw [key], by rw [key], by rw [key], hx1, ?_, ?_, ?_⟩
  · rw [key]
    intro hmem
    rcases List.mem_append.mp hmem with h | h
    · rcases closeBufActions_shape c _ h with h' | h' | h' <;> simp at h'
    · simp at h
  · intro a ha
    rw [hsecond] at ha
    have hshape := closeBufActions_shape (xcompgrab_read_close c).1 a ha
    have hnopbo : ¬ ((xcompgrab_read_close c).1.xdisplay ≠ 0 ∧
        (xcompgrab_read_close c).1.gl_pixmap ≠ 0 ∧
        (xcompgrab_read_close c).1.gl_ctx ≠ 0) := by
      rw [key]
      simp
    rcases hshape with h | ⟨p, hp⟩ | h
    · exact Or.inl h
    · exfalso
      unfold closeBufActions at ha
      by_cases hi : (xcompgrab_read_close c).1.framebuf_type = BUF_INTERNAL
      · rw [if_pos hi] at ha
        by_cases hp2 : (xcompgrab_read_close c).1.pvtSlicesPtr ≠ 0
        · rw [if_pos hp2] at ha
          simp only [List.mem_singleton] at ha
          rw [ha] at hp
          simp at hp
        · rw [if_neg hp2] at ha
          simp at ha
      · rw [if_neg hi] at ha
        by_cases hg : (xcompgrab_read_close c).1.framebuf_type = BUF_GLPBO
        · rw [if_pos hg, if_neg hnopbo] at ha
          simp only [List.nil_append] at ha
          by_cases hp3 : (xcompgrab_read_close c).1.pboSlicesPtr ≠ 0
          · rw [if_pos hp3] at ha
            simp only [List.mem_singleton] at ha
            rw [ha] at hp
            simp at hp
          · rw [if_neg hp3] at ha
            simp at ha
        · rw [if_neg hg] at ha
          simp at ha
    · exact Or.inr h
  · intro hsys
    rw [hsecond, closeBufActions_system]
    rw [key]
    exact hsys

theorem xcompgrab_read_close_amended_witness :
    (1 : Nat) ≠ 0 ∧ (2 : Nat) ≠ 0 ∧ (3 : Nat) ≠ 0 ∧ (5 : Nat) ≠ 0 ∧ (4 : Nat) ≠ 0 ∧
    ((xcompgrab_read_close (⟨1, 2, 3, 4, 5, 0, 0, 0, []⟩ : XCompGrabCtx)).2 =
      closeBufActions (⟨1, 2, 3, 4, 5, 0, 0, 0, []⟩ : XCompGrabCtx) ++
        [CloseAction.deleteTexture, CloseAction.destroyContext,
         CloseAction.freePixmap, CloseAction.closeDisplay] ∧
     (xcompgrab_read_close (⟨1, 2, 3, 4, 5, 0, 0, 0, []⟩ : XCompGrabCtx)).1.gl_texmap = 0 ∧
     (xcompgrab_read_close (⟨1, 2, 3, 4, 5, 0, 0, 0, []⟩ : XCompGrabCtx)).1.gl_ctx = 0 ∧
     (xcompgrab_read_close (⟨1, 2, 3, 4, 5, 0, 0, 0, []⟩ : XCompGrabCtx)).1.win_pixmap = 0 ∧
     (xcompgrab_read_close (⟨1, 2, 3, 4, 5, 0, 0, 0, []⟩ : XCompGrabCtx)).1.xdisplay = 0 ∧
     CloseAction.unredirectWindow ∉
       (xcompgrab_read_close (⟨1, 2, 3, 4, 5, 0, 0, 0, []⟩ : XCompGrabCtx)).2 ∧
     (∀ a ∈ (xcompgrab_read_close
         (xcompgrab_read_close (⟨1, 2, 3, 4, 5, 0, 0, 0, []⟩ : XCompGrabCtx)).1).2,
       a = CloseAction.freeMemSlices ∨ a = CloseAction.freePBOSlices) ∧
     ((⟨1, 2, 3, 4, 5, 0, 0, 0, []⟩ : XCompGrabCtx).framebuf_type = BUF_SYSTEM →
       xcompgrab_read_close
           (xcompgrab_read_close (⟨1, 2, 3, 4, 5, 0, 0, 0, []⟩ : XCompGrabCtx)).1 =
         ((xcompgrab_read_close (⟨1, 2, 3, 4, 5, 0, 0, 0, []⟩ : XCompGrabCtx)).1, []))) :=
  ⟨by decide, by decide, by decide, by decide, by decide,
   xcompgrab_read_close_amended ⟨1, 2, 3, 4, 5, 0, 0, 0, []⟩
     (by decide) (by decide) (by decide) (by decide) (by decide)⟩

end Replayer
